import Mathlib

/-
Verification development for the `rhoas_kafka` Terraform resource
(package `kafka`, file `resource_kafka.go`, plus `clients/default_client.go`).

The Go code is shallowly embedded: the dynamic schema store (`schema.ResourceData`)
becomes an association list of dynamic values, the remote management API is an
explicit environment of scripted responses, and each handler
(`kafkaCreate`, `kafkaRead`, `kafkaDelete`, `createACLForKafka`,
`KafkaAdmin`, `mapResourceDataToKafkaPayload`, `setResourceDataFromKafkaData`)
is a pure Lean function over that environment.  The framework polling helper
(`resource.StateChangeConf.WaitForStateContext`) and the helper
`utils.GetAPIError` are not part of the sources; they are modelled from the
specification and marked as such in their doc comments.
-/

set_option autoImplicit false

namespace Rhoas

/-- A Go `error` value: its `Error()` text, plus whether
`kafkamgmtv1errors.IsAPIError(err, ERROR_7)` holds for it (the only error
classification `default_client.go` performs). -/
structure GoError where
  msg : String
  isError7 : Bool := false
  deriving DecidableEq

/-- The part of an `*http.Response` the embedded code observes: the reason
text that the error translator may extract from the response body. -/
structure HttpResponse where
  reason : String
  deriving DecidableEq

/-- A translated domain error (the result of `utils.GetAPIError`), carrying
its rendered message text. -/
structure ApiError where
  msg : String
  deriving DecidableEq

/-- A `kafkamgmtclient.KafkaRequest` record.  The Go struct wraps optional
fields behind `Get*` accessors that return zero values; the embedding stores
the accessor results directly.  `createdAt`/`updatedAt` hold the RFC3339-
formatted text that `GetCreatedAt().Format(time.RFC3339)` produces. -/
structure KafkaRequest where
  id : String := ""
  name : String := ""
  cloudProvider : String := ""
  region : String := ""
  href : String := ""
  status : String := ""
  owner : String := ""
  bootstrapServerHost : String := ""
  createdAt : String := ""
  updatedAt : String := ""
  kind : String := ""
  version : String := ""
  adminApiServerUrl : String := ""
  deriving DecidableEq, Inhabited

/-- Result of one `GetKafkaById(...).Execute()` call: the (possibly
zero-valued) record, the raw response, and the Go error. -/
structure FetchResult where
  kafka : KafkaRequest := {}
  resp : Option HttpResponse := none
  err : Option GoError := none
  deriving DecidableEq, Inhabited

/-- A dynamic value as read out of `schema.ResourceData` via `Get` /
interface casts: a string, a list, a string-keyed map, or Go `nil`. -/
inductive Value where
  | vStr : String → Value
  | vList : List Value → Value
  | vMap : List (String × Value) → Value
  | vNil : Value

/-- First-match lookup in a dynamic field store; a missing key reads as
Go `nil` (`Value.vNil`). -/
def lookupField : List (String × Value) → String → Value
  | [], _ => Value.vNil
  | (k, v) :: rest, f => if k = f then v else lookupField rest f

/-- The slice of `schema.ResourceData` the handlers use: the dynamic field
store (`Get`/`Set`) and the resource identifier (`Id`/`SetId`). -/
structure ResourceData where
  fields : List (String × Value) := []
  id : String := ""

/-- `d.Get(f)`. -/
def ResourceData.get (d : ResourceData) (f : String) : Value :=
  lookupField d.fields f

/-- `d.Set(f, v)`: the new pair shadows older ones, and `ResourceData.get`
takes the most recent binding, giving overwrite semantics.  In the embedding
`Set` cannot fail (the Go error return covers schema mismatches only). -/
def ResourceData.set (d : ResourceData) (f : String) (v : Value) : ResourceData :=
  { d with fields := (f, v) :: d.fields }

/-- `d.SetId(s)`. -/
def ResourceData.setId (d : ResourceData) (s : String) : ResourceData :=
  { d with id := s }

/-- `kafkamgmtclient.KafkaRequestPayload` as built by
`mapResourceDataToKafkaPayload`: name plus cloud provider and region. -/
structure KafkaRequestPayload where
  name : String
  cloudProvider : String
  region : String
  deriving DecidableEq

/-- A `diag.Diagnostics` result: empty (success) or an error diagnostic
carrying its message. -/
inductive Diag where
  | ok : Diag
  | err : String → Diag
  deriving DecidableEq

/-- The schema field name constants of `resource_kafka.go`. -/
def CloudProviderField : String := "cloud_provider"

def RegionField : String := "region"

def NameField : String := "name"

def HrefField : String := "href"

def StatusField : String := "status"

def OwnerField : String := "owner"

def BootstrapServerHostField : String := "bootstrap_server_host"

def CreatedAtField : String := "created_at"

def UpdatedAtField : String := "updated_at"

def IDField : String := "id"

def KindField : String := "kind"

def VersionField : String := "version"

def ACLField : String := "acl"

/-- Status constants from `clients/default_client.go`. -/
def StatusAccepted : String := "accepted"

def StatusPreparing : String := "preparing"

def StatusProvisioning : String := "provisioning"

def StatusFailed : String := "failed"

def StatusDeprovision : String := "deprovision"

def StatusDeleting : String := "deleting"

/-- Modelled from the spec: `utils.GetAPIError` (package `utils`, not under
the provided sources).  Per §4.1 step 2 and §7(b) it translates a failed
remote call's error into a domain error carrying the remote reason text when
present; when the call did not error there is nothing to translate. -/
def GetAPIError (resp : Option HttpResponse) (err : Option GoError) : Option ApiError :=
  match err with
  | none => none
  | some e =>
    match resp with
    | some r => some { msg := e.msg ++ r.reason }
    | none => some { msg := e.msg }

/-- Does `sub` occur as a contiguous segment of the character list?  Checked
structurally at every suffix, so it evaluates inside proofs. -/
def occursIn (sub : List Char) : List Char → Bool
  | [] => sub.isEmpty
  | b :: bs => sub.isPrefixOf (b :: bs) || occursIn sub bs

/-- `strings.Contains`: does `sub` occur as a substring of `s`? -/
def stringsContains (s sub : String) : Bool :=
  occursIn sub.data s.data

/-- `strings.ToUpper`, modelled character-wise (structural recursion over the
character list, so it evaluates inside proofs); on the ASCII enum-like inputs
this code transmits it agrees with Go's definition. -/
def stringsToUpper (s : String) : String :=
  String.mk (s.data.map Char.toUpper)

/-- `mapResourceDataToKafkaPayload`: reads `cloud_provider`, `region` and
`name` with checked string casts (the localized error is modelled by its
message key plus the field name) and builds the create payload. -/
def mapResourceDataToKafkaPayload (d : ResourceData) : Except GoError KafkaRequestPayload :=
  match d.get CloudProviderField with
  | Value.vStr cloudProvider =>
    match d.get RegionField with
    | Value.vStr region =>
      match d.get NameField with
      | Value.vStr name =>
        Except.ok { name := name, cloudProvider := cloudProvider, region := region }
      | _ => Except.error { msg := "common.errors.fieldNotFoundInSchema:" ++ NameField }
    | _ => Except.error { msg := "common.errors.fieldNotFoundInSchema:" ++ RegionField }
  | _ => Except.error { msg := "common.errors.fieldNotFoundInSchema:" ++ CloudProviderField }

/-- `setResourceDataFromKafkaData`: writes every schema field from the
fetched record, in source order.  `Set` cannot fail in the embedding, so the
Go error return disappears. -/
def setResourceDataFromKafkaData (d : ResourceData) (kafka : KafkaRequest) : ResourceData :=
  ((((((((((((d.set CloudProviderField (Value.vStr kafka.cloudProvider)).set
    RegionField (Value.vStr kafka.region)).set
    NameField (Value.vStr kafka.name)).set
    HrefField (Value.vStr kafka.href)).set
    StatusField (Value.vStr kafka.status)).set
    OwnerField (Value.vStr kafka.owner)).set
    BootstrapServerHostField (Value.vStr kafka.bootstrapServerHost)).set
    CreatedAtField (Value.vStr kafka.createdAt)).set
    UpdatedAtField (Value.vStr kafka.updatedAt)).set
    IDField (Value.vStr kafka.id)).set
    KindField (Value.vStr kafka.kind)).set
    VersionField (Value.vStr kafka.version))

/-- The instance admin API client that `KafkaAdmin` constructs, identified by
its base URL. -/
structure APIClient where
  baseURL : String
  deriving DecidableEq

/-- `DefaultClient.KafkaAdmin` from `clients/default_client.go`.  The result
of the inner `GetKafkaById` call is the `fetch` argument.  An `ERROR_7` API
error is returned as-is; then the status switch rejects provisioning,
accepted, failed, deprovision and deleting instances; then an empty bootstrap
server host is rejected; otherwise the admin client for the instance's admin
API URL is returned together with the fetched record. -/
def KafkaAdmin (fetch : FetchResult) : Except GoError (APIClient × KafkaRequest) :=
  if (match fetch.err with | some e => e.isError7 | none => false) then
    Except.error { msg := (match fetch.err with | some e => e.msg | none => "") }
  else
    let kafkaInstance := fetch.kafka
    let kafkaStatus := kafkaInstance.status
    if kafkaStatus = StatusProvisioning ∨ kafkaStatus = StatusAccepted then
      Except.error { msg := "Kafka instance \"" ++ kafkaInstance.name ++ "\" is not ready yet" }
    else if kafkaStatus = StatusFailed then
      Except.error { msg := "Kafka instance \"" ++ kafkaInstance.name ++ "\" has failed" }
    else if kafkaStatus = StatusDeprovision then
      Except.error { msg := "Kafka instance \"" ++ kafkaInstance.name ++ "\" is being deprovisioned" }
    else if kafkaStatus = StatusDeleting then
      Except.error { msg := "Kafka instance \"" ++ kafkaInstance.name ++ "\" is being deleted" }
    else if kafkaInstance.bootstrapServerHost = "" then
      Except.error { msg := "bootstrap URL is missing for Kafka instance \"" ++ kafkaInstance.name ++ "\"" }
    else
      Except.ok ({ baseURL := kafkaInstance.adminApiServerUrl }, kafkaInstance)

/-- Modelled from the spec: the field key constants of the `acl` package
(package `acl`, not under the provided sources). Claims depend only on the
keys being fixed and distinct, not on their exact spelling. -/
def PrincipalField : String := "principal"

def ResourceTypeField : String := "resource_type"

def ResourceNameField : String := "resource_name"

def PatternTypeField : String := "pattern_type"

def OperationTypeField : String := "operation_type"

def PermissionTypeField : String := "permission_type"

/-- Modelled from the spec (and the source comment "when appended to User:"):
`acl.PrincipalPrefix`, the fixed tag prepended to the principal before
transmission (package `acl`, not under the provided sources). -/
def principalTag : String := "User:"

/-- A `kafkainstanceclient.AclBinding`, fields in the argument order of
`NewAclBinding`: resource type, resource name, pattern type, principal,
operation, permission. -/
structure AclBinding where
  resourceType : String
  resourceName : String
  patternType : String
  principal : String
  operation : String
  permission : String
  deriving DecidableEq, Inhabited

/-- The pure part of one iteration of the loop in `createACLForKafka`: cast
the list element to a map, extract the six fields with checked string casts,
prefix the principal with the fixed tag, and build the binding with
`strings.ToUpper` applied to resource type, pattern type, operation type and
permission type (the resource name is passed through as given). -/
def parseAclElement (v : Value) : Except GoError AclBinding :=
  match v with
  | Value.vMap element =>
    match lookupField element PrincipalField with
    | Value.vStr principal =>
      match lookupField element ResourceTypeField with
      | Value.vStr resourceType =>
        match lookupField element ResourceNameField with
        | Value.vStr resourceName =>
          match lookupField element PatternTypeField with
          | Value.vStr patternType =>
            match lookupField element OperationTypeField with
            | Value.vStr operationType =>
              match lookupField element PermissionTypeField with
              | Value.vStr permissionType =>
                Except.ok
                  { resourceType := stringsToUpper resourceType
                    resourceName := resourceName
                    patternType := stringsToUpper patternType
                    principal := principalTag ++ principal
                    operation := stringsToUpper operationType
                    permission := stringsToUpper permissionType }
              | _ => Except.error { msg := "kafka.errors.noAclFieldGiven:" ++ PermissionTypeField }
            | _ => Except.error { msg := "kafka.errors.noAclFieldGiven:" ++ OperationTypeField }
          | _ => Except.error { msg := "kafka.errors.noAclFieldGiven:" ++ PatternTypeField }
        | _ => Except.error { msg := "kafka.errors.noAclFieldGiven:" ++ ResourceNameField }
      | _ => Except.error { msg := "kafka.errors.noAclFieldGiven:" ++ ResourceTypeField }
    | _ => Except.error { msg := "kafka.errors.noAclFieldGiven:" ++ PrincipalField }
  | _ => Except.error { msg := "kafka.errors.unableToRetrieveAclContents" }

/-- Parse every element of the acl list, failing on the first bad element
(mirrors the loop aborting on a failed cast). -/
def parseAll : List Value → Option (List AclBinding)
  | [] => some []
  | e :: rest =>
    match parseAclElement e with
    | Except.error _ => none
    | Except.ok b => (parseAll rest).map (fun bs => b :: bs)

/-- The remote behavior visible to `createACLForKafka`, indexed by loop
iteration: the `GetKafkaById` result used inside `factory.KafkaAdmin`, and
the outcome of `AclsApi.CreateAcl(...).Execute()` for the submitted binding
(`none` = success). -/
structure AclEnv where
  adminFetch : Nat → FetchResult
  createAcl : Nat → AclBinding → Option GoError

/-- The loop of `createACLForKafka`, from iteration `i`: parse the element,
resolve the admin client via `KafkaAdmin`, submit the binding, and abort on
the first error.  The second component records every binding actually passed
to `CreateAcl`, in submission order, paired with whether that submission
succeeded. -/
def aclLoop (env : AclEnv) : List Value → Nat → Except GoError Unit × List (AclBinding × Bool)
  | [], _ => (Except.ok (), [])
  | e :: rest, i =>
    match parseAclElement e with
    | Except.error err => (Except.error err, [])
    | Except.ok binding =>
      match KafkaAdmin (env.adminFetch i) with
      | Except.error err => (Except.error err, [])
      | Except.ok _ =>
        match env.createAcl i binding with
        | some err => (Except.error err, [(binding, false)])
        | none =>
          let r := aclLoop env rest (i + 1)
          (r.1, (binding, true) :: r.2)

/-- `createACLForKafka`: a Go-`nil` acl input is a no-op; a non-list input is
the localized schema error; otherwise run the submission loop. -/
def createACLForKafka (env : AclEnv) (d : ResourceData) :
    Except GoError Unit × List (AclBinding × Bool) :=
  match d.get ACLField with
  | Value.vNil => (Except.ok (), [])
  | Value.vList aclConfig => aclLoop env aclConfig 0
  | _ => (Except.error { msg := "common.errors.fieldNotFoundInSchema:" ++ ACLField }, [])

/-- Outcome of a `WaitForStateContext` run: the record observed in the
target set, a timeout error with the framework-produced error text, or a
hard error propagated from the refresh function. -/
inductive PollOutcome (α : Type) where
  | success : α → PollOutcome α
  | timeout : String → PollOutcome α
  | hardError : ApiError → PollOutcome α
  deriving DecidableEq

/-- Modelled from the spec: the Status Poller of §4.4
(`resource.StateChangeConf.WaitForStateContext`, external framework code).
It repeatedly invokes the refresh function until the status is observed in
the target set (success), the time budget elapses (timeout failure, whose
wrapped error text is framework-supplied), or the refresh function returns a
hard error (propagated immediately).  Per §4.1, anything not in the target
set counts as still pending, so the `pending` configuration does not alter
the loop; time is modelled as a budget of refresh attempts, and `i` numbers
the attempts so that environments can script per-poll responses. -/
def poll {α : Type} (refresh : Nat → Except ApiError (α × String))
    (pending target : List String) (timeoutMsg : String) : Nat → Nat → PollOutcome α
  | _, 0 => PollOutcome.timeout timeoutMsg
  | i, fuel + 1 =>
    match refresh i with
    | Except.error e => PollOutcome.hardError e
    | Except.ok (res, status) =>
      if status ∈ target then PollOutcome.success res
      else poll refresh pending target timeoutMsg (i + 1) fuel

/-- The `Pending` list of the create-path `StateChangeConf`. -/
def createPending : List String := ["accepted", "preparing", "provisioning"]

/-- The `Target` list of the create-path `StateChangeConf`. -/
def createTarget : List String := ["ready"]

/-- The `Refresh` closure of the create-path `StateChangeConf`: fetch the
instance; when that fetch errors (`err1`), consult the error translator on
the fetch's response paired with `err`, the ORIGINAL `CreateKafka` call's
error captured by the closure — `err1` itself is never translated; only a
non-nil translation aborts polling, otherwise the (possibly zero-valued)
fetched record and its status are reported. -/
def createRefresh (createErr : Option GoError) (getKafka : Nat → FetchResult)
    (i : Nat) : Except ApiError (KafkaRequest × String) :=
  let fr := getKafka i
  match fr.err with
  | some _ =>
    match GetAPIError fr.resp createErr with
    | some apiErr => Except.error apiErr
    | none => Except.ok (fr.kafka, fr.kafka.status)
  | none => Except.ok (fr.kafka, fr.kafka.status)

/-- The remote behavior visible to `kafkaCreate`: the `CreateKafka` call's
result for the submitted payload, the per-poll `GetKafkaById` results, the
poll budget standing in for the configured timeout, the framework's timeout
error text, and the ACL-stage environment. -/
structure CreateEnv where
  createResult : KafkaRequestPayload → KafkaRequest × Option HttpResponse × Option GoError
  getKafka : Nat → FetchResult
  fuel : Nat
  timeoutMsg : String
  aclEnv : AclEnv

/-- `kafkaCreate`: map the payload (aborting on a field error before any
remote call), issue `CreateKafka` (recorded in the trace of create calls),
translate a create error, record the returned id with `SetId`, poll until
`ready`, hydrate the resource data, and create the ACL bindings.  Returns
the diagnostics, the final resource data, and the list of payloads submitted
to `CreateKafka`. -/
def kafkaCreate (env : CreateEnv) (d : ResourceData) :
    Diag × ResourceData × List KafkaRequestPayload :=
  match mapResourceDataToKafkaPayload d with
  | Except.error e => (Diag.err e.msg, d, [])
  | Except.ok requestPayload =>
    let r := env.createResult requestPayload
    let kr := r.1
    let resp := r.2.1
    let err := r.2.2
    let calls := [requestPayload]
    match err, GetAPIError resp err with
    | some _, some apiErr => (Diag.err apiErr.msg, d, calls)
    | _, _ =>
      let d1 := d.setId kr.id
      match poll (createRefresh err env.getKafka) createPending createTarget
          env.timeoutMsg 0 env.fuel with
      | PollOutcome.timeout msg => (Diag.err msg, d1, calls)
      | PollOutcome.hardError e => (Diag.err e.msg, d1, calls)
      | PollOutcome.success kafka =>
        let d2 := setResourceDataFromKafkaData d1 kafka
        match (createACLForKafka env.aclEnv d2).1 with
        | Except.error e => (Diag.err e.msg, d2, calls)
        | Except.ok _ => (Diag.ok, d2, calls)

/-- The `Pending` list of the delete-path `StateChangeConf`. -/
def deletePending : List String := ["deprovision", "deleting"]

/-- The `Target` list of the delete-path `StateChangeConf` (`"404"` is the
synthetic not-found sentinel). -/
def deleteTarget : List String := ["deleted", "404"]

/-- The `Refresh` closure of the delete-path `StateChangeConf`: a fetch error
whose text is exactly `"404 Not Found"` reports the sentinel status `"404"`;
any other fetch error is translated into a hard error; otherwise the fetched
record's status is reported. -/
def deleteRefresh (getKafka : Nat → FetchResult) (i : Nat) :
    Except ApiError (KafkaRequest × String) :=
  let fr := getKafka i
  match fr.err with
  | some e1 =>
    if e1.msg = "404 Not Found" then Except.ok (fr.kafka, "404")
    else
      match GetAPIError fr.resp (some e1) with
      | some apiErr => Except.error apiErr
      | none => Except.ok (fr.kafka, fr.kafka.status)
  | none => Except.ok (fr.kafka, fr.kafka.status)

/-- The remote behavior visible to `kafkaDelete`: the `DeleteKafkaById`
call's error and the `Reason` field of its structured API error body, the
per-poll `GetKafkaById` results, the poll budget, and the framework's
timeout error text. -/
structure DeleteEnv where
  deleteErr : Option GoError
  deleteApiErrReason : String
  getKafka : Nat → FetchResult
  fuel : Nat
  timeoutMsg : String

/-- `kafkaDelete`: a delete error with text exactly `"404 "` means the
resource is already deleted — clear the id and succeed; any other delete
error is surfaced (with the structured reason appended when present); else
poll until `deleted`/`404`; a poll error is surfaced wrapped unless its text
contains `"not found"`; on success the id is cleared. -/
def kafkaDelete (env : DeleteEnv) (d : ResourceData) : Diag × ResourceData :=
  match env.deleteErr with
  | some e =>
    if e.msg = "404 " then (Diag.ok, d.setId "")
    else if env.deleteApiErrReason ≠ "" then (Diag.err (e.msg ++ env.deleteApiErrReason), d)
    else (Diag.err e.msg, d)
  | none =>
    match poll (deleteRefresh env.getKafka) deletePending deleteTarget
        env.timeoutMsg 0 env.fuel with
    | PollOutcome.success _ => (Diag.ok, d.setId "")
    | PollOutcome.timeout msg =>
      if stringsContains msg "not found" then (Diag.ok, d.setId "")
      else
        (Diag.err ("Error waiting for example instance (" ++ d.id ++ ") to be deleted: " ++ msg), d)
    | PollOutcome.hardError e =>
      if stringsContains e.msg "not found" then (Diag.ok, d.setId "")
      else
        (Diag.err ("Error waiting for example instance (" ++ d.id ++ ") to be deleted: " ++ e.msg), d)

/-- The remote behavior visible to `kafkaRead`: the `GetKafkaById` result. -/
structure ReadEnv where
  fetch : FetchResult

/-- `kafkaRead`: fetch by id; when the fetch errors and the translator yields
a domain error, surface it without touching the resource data; otherwise
hydrate the resource data from the fetched record. -/
def kafkaRead (env : ReadEnv) (d : ResourceData) : Diag × ResourceData :=
  match env.fetch.err with
  | some e =>
    match GetAPIError env.fetch.resp (some e) with
    | some apiErr => (Diag.err apiErr.msg, d)
    | none => (Diag.ok, setResourceDataFromKafkaData d env.fetch.kafka)
  | none => (Diag.ok, setResourceDataFromKafkaData d env.fetch.kafka)

/-! Helper lemmas about the modelled poller and the ACL loop. -/

theorem poll_timeout_of_not_target {α : Type} (refresh : Nat → Except ApiError (α × String))
    (pending target : List String) (timeoutMsg : String)
    (h : ∀ j, ∃ a s, refresh j = Except.ok (a, s) ∧ s ∉ target) :
    ∀ fuel i, poll refresh pending target timeoutMsg i fuel = PollOutcome.timeout timeoutMsg := by
  intro fuel
  induction fuel with
  | zero => intro i; rfl
  | succ n ih =>
    intro i
    obtain ⟨a, s, hok, hs⟩ := h i
    simp only [poll, hok]
    rw [if_neg hs]
    exact ih (i + 1)

theorem poll_success_at {α : Type} (refresh : Nat → Except ApiError (α × String))
    (pending target : List String) (timeoutMsg : String) :
    ∀ (k i fuel : Nat) (res : α) (stat : String),
      (∀ j, j < k → ∃ a s, refresh (i + j) = Except.ok (a, s) ∧ s ∉ target) →
      refresh (i + k) = Except.ok (res, stat) → stat ∈ target → k < fuel →
      poll refresh pending target timeoutMsg i fuel = PollOutcome.success res := by
  intro k
  induction k with
  | zero =>
    intro i fuel res stat _ hk hstat hfuel
    match fuel, hfuel with
    | fuel + 1, _ =>
      rw [Nat.add_zero] at hk
      simp only [poll, hk]
      rw [if_pos hstat]
  | succ n ih =>
    intro i fuel res stat hbefore hk hstat hfuel
    match fuel, hfuel with
    | fuel + 1, hfuel =>
      obtain ⟨a, s, hok, hs⟩ := hbefore 0 (Nat.succ_pos n)
      rw [Nat.add_zero] at hok
      simp only [poll, hok]
      rw [if_neg hs]
      refine ih (i + 1) fuel res stat ?_ ?_ hstat (Nat.lt_of_succ_lt_succ hfuel)
      · intro j hj
        have harith : i + 1 + j = i + (j + 1) := by omega
        rw [harith]
        exact hbefore (j + 1) (Nat.succ_lt_succ hj)
      · have harith : i + 1 + n = i + (n + 1) := by omega
        rw [harith]
        exact hk

theorem aclLoop_abort_at (env : AclEnv) :
    ∀ (elems : List Value) (bs : List AclBinding) (i k : Nat) (err : GoError),
      parseAll elems = some bs →
      (∀ j, j ≤ k → ∃ c, KafkaAdmin (env.adminFetch (i + j)) = Except.ok c) →
      (∀ j, j < k → env.createAcl (i + j) (bs.getD j default) = none) →
      k < bs.length →
      env.createAcl (i + k) (bs.getD k default) = some err →
      aclLoop env elems i =
        (Except.error err,
          ((bs.take k).map (fun b => (b, true))) ++ [(bs.getD k default, false)]) := by
  intro elems
  induction elems with
  | nil =>
    intro bs i k err hparse _ _ hk _
    simp only [parseAll, Option.some.injEq] at hparse
    subst hparse
    exact absurd hk (by simp)
  | cons e rest ih =>
    intro bs i k err hparse hadmin hbefore hk herr
    cases hpe : parseAclElement e with
    | error ge =>
      rw [parseAll, hpe] at hparse
      exact Option.noConfusion hparse
    | ok b =>
      rw [parseAll, hpe] at hparse
      cases hpr : parseAll rest with
      | none =>
        rw [hpr] at hparse
        exact Option.noConfusion hparse
      | some bs' =>
        rw [hpr] at hparse
        have hbs : bs = b :: bs' := (Option.some.inj hparse).symm
        subst hbs
        obtain ⟨c0, hc0⟩ := hadmin 0 (Nat.zero_le k)
        rw [Nat.add_zero] at hc0
        cases k with
        | zero =>
          rw [Nat.add_zero] at herr
          simp only [List.getD_cons_zero] at herr
          simp only [aclLoop, hpe, hc0, herr, List.take_zero, List.map_nil,
            List.nil_append, List.getD_cons_zero]
        | succ n =>
          have h0 : env.createAcl i b = none := by
            have h := hbefore 0 (Nat.succ_pos n)
            rw [Nat.add_zero] at h
            simpa using h
          have hrec := ih bs' (i + 1) n err hpr ?_ ?_ ?_ ?_
          · simp only [aclLoop, hpe, hc0, h0, hrec, List.take_succ_cons, List.map_cons,
              List.cons_append, List.getD_cons_succ]
          · intro j hj
            have harith : i + 1 + j = i + (j + 1) := by omega
            rw [harith]
            exact hadmin (j + 1) (Nat.succ_le_succ hj)
          · intro j hj
            have harith : i + 1 + j = i + (j + 1) := by omega
            rw [harith]
            have h := hbefore (j + 1) (Nat.succ_lt_succ hj)
            simpa using h
          · exact Nat.lt_of_succ_lt_succ (by simpa using hk)
          · have harith : i + 1 + n = i + (n + 1) := by omega
            rw [harith]
            simpa using herr

/-! Claim theorems. -/

/-- C7: hydrating the local record from a remote instance response via
`setResourceDataFromKafkaData` and re-serializing it through
`mapResourceDataToKafkaPayload` preserves the `name`, `cloud_provider` and
`region` values of the response. -/
theorem hydrate_payload_round_trip (d : ResourceData) (kafka : KafkaRequest) :
    mapResourceDataToKafkaPayload (setResourceDataFromKafkaData d kafka) =
      Except.ok { name := kafka.name, cloudProvider := kafka.cloudProvider,
                  region := kafka.region } := rfl

/-- C6 counterexample: a concrete binding specification whose resource name
is lower-case is transmitted by `createACLForKafka` with the resource name
as given, not upper-cased, refuting the claim that all of the free-form
fields including the resource name are normalized to upper-case. -/
def c6AclEnv : AclEnv :=
  { adminFetch := fun _ =>
      { kafka :=
          { status := "ready"
            bootstrapServerHost := "host:443"
            adminApiServerUrl := "https://admin.example" } }
    createAcl := fun _ _ => none }

def c6Data : ResourceData :=
  { fields := [(ACLField, Value.vList [Value.vMap
      [(PrincipalField, Value.vStr "alice"),
       (ResourceTypeField, Value.vStr "topic"),
       (ResourceNameField, Value.vStr "my-topic"),
       (PatternTypeField, Value.vStr "literal"),
       (OperationTypeField, Value.vStr "all"),
       (PermissionTypeField, Value.vStr "allow")]])] }

theorem acl_resource_name_not_uppercased :
    createACLForKafka c6AclEnv c6Data =
      (Except.ok (),
        [({ resourceType := "TOPIC", resourceName := "my-topic", patternType := "LITERAL",
            principal := "User:alice", operation := "ALL", permission := "ALLOW" }, true)]) ∧
    "my-topic" ≠ stringsToUpper "my-topic" := by
  exact ⟨rfl, by decide⟩

/-- C6 amended: before transmission the principal is prefixed with the fixed
principal tag, and the resource type, name-pattern type, operation type and
permission type are normalized to upper-case; the resource name is
transmitted as given. -/
theorem acl_binding_normalization (p rt rn pt ot pmt : String) :
    parseAclElement (Value.vMap
      [(PrincipalField, Value.vStr p), (ResourceTypeField, Value.vStr rt),
       (ResourceNameField, Value.vStr rn), (PatternTypeField, Value.vStr pt),
       (OperationTypeField, Value.vStr ot), (PermissionTypeField, Value.vStr pmt)]) =
    Except.ok { resourceType := stringsToUpper rt, resourceName := rn,
                patternType := stringsToUpper pt, principal := principalTag ++ p,
                operation := stringsToUpper ot, permission := stringsToUpper pmt } := rfl

/-- C10: resolving the instance admin API client fails (no client, an error)
whenever the fetched instance's status is accepted, provisioning, failed,
deprovision or deleting, or its bootstrap server host is empty; a client is
returned only when none of these conditions hold. -/
theorem kafkaAdmin_rejects_unready (fetch : FetchResult) :
    ((fetch.kafka.status = StatusAccepted ∨ fetch.kafka.status = StatusProvisioning ∨
      fetch.kafka.status = StatusFailed ∨ fetch.kafka.status = StatusDeprovision ∨
      fetch.kafka.status = StatusDeleting ∨ fetch.kafka.bootstrapServerHost = "") →
      ∃ e, KafkaAdmin fetch = Except.error e) ∧
    (∀ c, KafkaAdmin fetch = Except.ok c →
      ¬(fetch.kafka.status = StatusAccepted ∨ fetch.kafka.status = StatusProvisioning ∨
        fetch.kafka.status = StatusFailed ∨ fetch.kafka.status = StatusDeprovision ∨
        fetch.kafka.status = StatusDeleting ∨ fetch.kafka.bootstrapServerHost = "")) := by
  have key : (fetch.kafka.status = StatusAccepted ∨ fetch.kafka.status = StatusProvisioning ∨
      fetch.kafka.status = StatusFailed ∨ fetch.kafka.status = StatusDeprovision ∨
      fetch.kafka.status = StatusDeleting ∨ fetch.kafka.bootstrapServerHost = "") →
      ∃ e, KafkaAdmin fetch = Except.error e := by
    intro h
    simp only [KafkaAdmin]
    split_ifs with h0 h1 h2 h3 h4 h5
    · exact ⟨_, rfl⟩
    · exact ⟨_, rfl⟩
    · exact ⟨_, rfl⟩
    · exact ⟨_, rfl⟩
    · exact ⟨_, rfl⟩
    · exact ⟨_, rfl⟩
    · exfalso
      rcases h with h | h | h | h | h | h
      · exact h1 (Or.inr h)
      · exact h1 (Or.inl h)
      · exact h2 h
      · exact h3 h
      · exact h4 h
      · exact h5 h
  refine ⟨key, ?_⟩
  intro c hok h
  obtain ⟨e, he⟩ := key h
  rw [hok] at he
  exact Except.noConfusion he

def c10Fetch : FetchResult := { kafka := { name := "k", status := "failed" } }

theorem kafkaAdmin_rejects_unready_witness :
    (c10Fetch.kafka.status = StatusAccepted ∨ c10Fetch.kafka.status = StatusProvisioning ∨
      c10Fetch.kafka.status = StatusFailed ∨ c10Fetch.kafka.status = StatusDeprovision ∨
      c10Fetch.kafka.status = StatusDeleting ∨ c10Fetch.kafka.bootstrapServerHost = "") ∧
    ∃ e, KafkaAdmin c10Fetch = Except.error e :=
  ⟨by decide, (kafkaAdmin_rejects_unready c10Fetch).1 (by decide)⟩

/-- C2: ACL bindings are submitted strictly in list order; the operation
aborts with the first failing submission's error (overall failure), the
bindings before it were submitted successfully and stay applied, and the
bindings after it are never submitted. -/
theorem acl_bindings_sequential_abort (env : AclEnv) (d : ResourceData)
    (elems : List Value) (bs : List AclBinding) (k : Nat) (err : GoError)
    (hacl : d.get ACLField = Value.vList elems)
    (hparse : parseAll elems = some bs)
    (hadmin : ∀ j, j ≤ k → ∃ c, KafkaAdmin (env.adminFetch j) = Except.ok c)
    (hbefore : ∀ j, j < k → env.createAcl j (bs.getD j default) = none)
    (hk : k < bs.length)
    (herr : env.createAcl k (bs.getD k default) = some err) :
    createACLForKafka env d =
      (Except.error err,
        ((bs.take k).map (fun b => (b, true))) ++ [(bs.getD k default, false)]) := by
  have h := aclLoop_abort_at env elems bs 0 k err hparse ?_ ?_ hk ?_
  · simp only [createACLForKafka, hacl]
    exact h
  · intro j hj
    rw [Nat.zero_add]
    exact hadmin j hj
  · intro j hj
    rw [Nat.zero_add]
    exact hbefore j hj
  · rw [Nat.zero_add]
    exact herr

def c2Elem (n : String) : Value :=
  Value.vMap [(PrincipalField, Value.vStr "alice"), (ResourceTypeField, Value.vStr "topic"),
    (ResourceNameField, Value.vStr n), (PatternTypeField, Value.vStr "literal"),
    (OperationTypeField, Value.vStr "all"), (PermissionTypeField, Value.vStr "allow")]

def c2Binding (n : String) : AclBinding :=
  { resourceType := "TOPIC", resourceName := n, patternType := "LITERAL",
    principal := "User:alice", operation := "ALL", permission := "ALLOW" }

def c2AclEnv : AclEnv :=
  { adminFetch := fun _ =>
      { kafka :=
          { status := "ready"
            bootstrapServerHost := "host:443"
            adminApiServerUrl := "https://admin.example" } }
    createAcl := fun i _ => if i = 1 then some { msg := "second binding rejected" } else none }

def c2Data : ResourceData :=
  { fields := [(ACLField, Value.vList [c2Elem "t1", c2Elem "t2", c2Elem "t3"])] }

theorem acl_bindings_sequential_abort_witness :
    createACLForKafka c2AclEnv c2Data =
      (Except.error { msg := "second binding rejected" },
        [(c2Binding "t1", true), (c2Binding "t2", false)]) :=
  acl_bindings_sequential_abort c2AclEnv c2Data
    [c2Elem "t1", c2Elem "t2", c2Elem "t3"]
    [c2Binding "t1", c2Binding "t2", c2Binding "t3"] 1 { msg := "second binding rejected" }
    rfl rfl
    (fun _ _ => ⟨({ baseURL := "https://admin.example" },
      { status := "ready", bootstrapServerHost := "host:443",
        adminApiServerUrl := "https://admin.example" }), rfl⟩)
    (fun j hj => by
      have hj0 : j = 0 := by omega
      subst hj0
      rfl)
    (by decide)
    rfl

/-- C5 counterexample: an instance specification whose `name` is the empty
string passes the field mapping (only the string type is checked, not
emptiness) and the remote create request IS issued, carrying the empty name
— creation does not fail with a validation error before the remote call. -/
def c5Env : CreateEnv :=
  { createResult := fun _ => ({ id := "kid" }, none, none)
    getKafka := fun _ => { kafka := { id := "kid", status := "ready" } }
    fuel := 1
    timeoutMsg := "timed out"
    aclEnv := { adminFetch := fun _ => {}, createAcl := fun _ _ => none } }

def c5Data : ResourceData :=
  { fields := [(CloudProviderField, Value.vStr "aws"), (RegionField, Value.vStr "us-east-1"),
               (NameField, Value.vStr "")] }

theorem empty_name_reaches_remote_create :
    mapResourceDataToKafkaPayload c5Data =
      Except.ok { name := "", cloudProvider := "aws", region := "us-east-1" } ∧
    (kafkaCreate c5Env c5Data).2.2 =
      [{ name := "", cloudProvider := "aws", region := "us-east-1" }] :=
  ⟨rfl, rfl⟩

/-- Is this dynamic value a string? -/
def isStr : Value → Bool
  | Value.vStr _ => true
  | _ => false

/-- C5 amended: creation fails with the schema-field validation error naming
`name`, before any remote create call is issued, exactly when the name
attribute is missing or not typed as a string (provider and region being
strings); an empty string name is NOT rejected by this validation. -/
theorem missing_name_fails_before_remote_call (env : CreateEnv) (d : ResourceData)
    (cp rg : String)
    (hcp : d.get CloudProviderField = Value.vStr cp)
    (hrg : d.get RegionField = Value.vStr rg)
    (hname : isStr (d.get NameField) = false) :
    kafkaCreate env d =
      (Diag.err ("common.errors.fieldNotFoundInSchema:" ++ NameField), d, []) := by
  have hmap : mapResourceDataToKafkaPayload d =
      Except.error { msg := "common.errors.fieldNotFoundInSchema:" ++ NameField } := by
    simp only [mapResourceDataToKafkaPayload, hcp, hrg]
    cases hn : d.get NameField with
    | vStr s =>
      rw [hn] at hname
      simp [isStr] at hname
    | vList l => rfl
    | vMap m => rfl
    | vNil => rfl
  simp only [kafkaCreate, hmap]

def c5bData : ResourceData :=
  { fields := [(CloudProviderField, Value.vStr "aws"), (RegionField, Value.vStr "us-east-1")] }

theorem missing_name_fails_before_remote_call_witness :
    kafkaCreate c5Env c5bData =
      (Diag.err ("common.errors.fieldNotFoundInSchema:" ++ NameField), c5bData, []) :=
  missing_name_fails_before_remote_call c5Env c5bData "aws" "us-east-1" rfl rfl rfl

/-- C8: when the remote fetch reports an error (in particular a not-found),
the read path surfaces a domain error and returns the resource data
unchanged — the local identifier is not cleared. -/
theorem read_surfaces_remote_error (env : ReadEnv) (d : ResourceData) (e : GoError)
    (h : env.fetch.err = some e) :
    ∃ msg, kafkaRead env d = (Diag.err msg, d) := by
  cases hr : env.fetch.resp with
  | some r =>
    refine ⟨e.msg ++ r.reason, ?_⟩
    simp only [kafkaRead, h, hr, GetAPIError]
  | none =>
    refine ⟨e.msg, ?_⟩
    simp only [kafkaRead, h, hr, GetAPIError]

def c8Env : ReadEnv :=
  { fetch := { err := some { msg := "404 Not Found" }, resp := some { reason := ": kafka not found" } } }

def c8Data : ResourceData := { id := "kid" }

theorem read_surfaces_remote_error_witness :
    ∃ msg, kafkaRead c8Env c8Data = (Diag.err msg, c8Data) :=
  read_surfaces_remote_error c8Env c8Data { msg := "404 Not Found" } rfl

/-- C9: the create-path refresh hard-errors exactly when the error
translator applied to the per-poll fetch's response together with the
ORIGINAL create call's error yields a non-nil API error — the per-poll
fetch's own error is never translated — so whenever the original create
succeeded the refresh always reports the (possibly zero-valued) fetched
record and its status instead of aborting polling. -/
theorem createRefresh_translates_create_error (createErr : Option GoError)
    (getKafka : Nat → FetchResult) (i : Nat) :
    ((∃ e, createRefresh createErr getKafka i = Except.error e) ↔
      ((getKafka i).err ≠ none ∧ GetAPIError (getKafka i).resp createErr ≠ none)) ∧
    (createErr = none →
      createRefresh createErr getKafka i =
        Except.ok ((getKafka i).kafka, (getKafka i).kafka.status)) := by
  cases hf : (getKafka i).err with
  | none =>
    refine ⟨⟨?_, ?_⟩, ?_⟩
    · rintro ⟨e, he⟩
      simp only [createRefresh, hf] at he
      exact Except.noConfusion he
    · rintro ⟨hne, _⟩
      exact absurd rfl hne
    · intro _
      simp only [createRefresh, hf]
  | some e1 =>
    cases hg : GetAPIError (getKafka i).resp createErr with
    | none =>
      refine ⟨⟨?_, ?_⟩, ?_⟩
      · rintro ⟨e, he⟩
        simp only [createRefresh, hf, hg] at he
        exact Except.noConfusion he
      · rintro ⟨_, hgn⟩
        exact absurd rfl hgn
      · intro _
        simp only [createRefresh, hf, hg]
    | some apiErr =>
      refine ⟨⟨?_, ?_⟩, ?_⟩
      · intro _
        refine ⟨by simp [hf], by simp [hg]⟩
      · intro _
        exact ⟨apiErr, by simp only [createRefresh, hf, hg]⟩
      · intro hce
        rw [hce] at hg
        exact Option.noConfusion hg

def c9Get : Nat → FetchResult := fun _ =>
  { resp := some { reason := "boom" }, err := some { msg := "fetch failed" } }

theorem createRefresh_translates_create_error_witness :
    createRefresh none c9Get 0 = Except.ok ({}, "") ∧
    (∃ e, createRefresh (some { msg := "create failed" }) c9Get 0 = Except.error e) :=
  ⟨(createRefresh_translates_create_error none c9Get 0).2 rfl,
   (createRefresh_translates_create_error (some { msg := "create failed" }) c9Get 0).1.mpr
     ⟨by decide, by decide⟩⟩

/-- C1: with the create call succeeded, whenever every polled status lies
outside both the pending set {accepted, preparing, provisioning} and the
target set {ready} — e.g. `failed` — the create-path poll treats it as still
pending and keeps polling for its whole budget, ending in timeout: create
surfaces the timeout error rather than failing fast on such a status. -/
theorem create_no_fast_fail_on_unknown_status (env : CreateEnv) (d : ResourceData)
    (payload : KafkaRequestPayload)
    (hmap : mapResourceDataToKafkaPayload d = Except.ok payload)
    (hcreate : (env.createResult payload).2.2 = none)
    (hstatus : ∀ i, (env.getKafka i).err = none ∧
      (env.getKafka i).kafka.status ∉ createPending ∧
      (env.getKafka i).kafka.status ∉ createTarget) :
    poll (createRefresh (env.createResult payload).2.2 env.getKafka) createPending
        createTarget env.timeoutMsg 0 env.fuel = PollOutcome.timeout env.timeoutMsg ∧
    kafkaCreate env d =
      (Diag.err env.timeoutMsg, d.setId (env.createResult payload).1.id, [payload]) := by
  have hrefresh : ∀ j, ∃ a s,
      createRefresh (env.createResult payload).2.2 env.getKafka j = Except.ok (a, s) ∧
      s ∉ createTarget := by
    intro j
    obtain ⟨he, _, ht⟩ := hstatus j
    exact ⟨(env.getKafka j).kafka, (env.getKafka j).kafka.status,
      by simp only [createRefresh, he], ht⟩
  have hpoll := poll_timeout_of_not_target _ createPending createTarget env.timeoutMsg
    hrefresh env.fuel 0
  refine ⟨hpoll, ?_⟩
  rw [hcreate] at hpoll
  simp only [kafkaCreate, hmap]
  rw [hcreate, hpoll]

def c1CreateEnv : CreateEnv :=
  { createResult := fun _ => ({ id := "kid" }, none, none)
    getKafka := fun _ => { kafka := { id := "kid", status := "failed" } }
    fuel := 3
    timeoutMsg := "timeout while waiting for state to become ready"
    aclEnv := { adminFetch := fun _ => {}, createAcl := fun _ _ => none } }

def c1Data : ResourceData :=
  { fields := [(CloudProviderField, Value.vStr "aws"), (RegionField, Value.vStr "us-east-1"),
               (NameField, Value.vStr "my-kafka")] }

theorem create_no_fast_fail_witness :
    poll (createRefresh none c1CreateEnv.getKafka) createPending createTarget
        c1CreateEnv.timeoutMsg 0 c1CreateEnv.fuel =
      PollOutcome.timeout c1CreateEnv.timeoutMsg ∧
    kafkaCreate c1CreateEnv c1Data =
      (Diag.err c1CreateEnv.timeoutMsg, c1Data.setId "kid",
        [{ name := "my-kafka", cloudProvider := "aws", region := "us-east-1" }]) :=
  create_no_fast_fail_on_unknown_status c1CreateEnv c1Data
    { name := "my-kafka", cloudProvider := "aws", region := "us-east-1" }
    rfl rfl (fun _ => ⟨rfl, show ("failed" : String) ∉ createPending by decide,
      show ("failed" : String) ∉ createTarget by decide⟩)

/-- C4: when the remote create call succeeds but the instance never reaches
`ready` before the poll budget is exhausted, create fails with the timeout
error and the resource data still carries the identifier recorded
immediately after the create call — it is not cleared on this path. -/
theorem create_timeout_keeps_identifier (env : CreateEnv) (d : ResourceData)
    (payload : KafkaRequestPayload)
    (hmap : mapResourceDataToKafkaPayload d = Except.ok payload)
    (hcreate : (env.createResult payload).2.2 = none)
    (hstatus : ∀ i, (env.getKafka i).err = none ∧
      (env.getKafka i).kafka.status ≠ "ready") :
    kafkaCreate env d =
      (Diag.err env.timeoutMsg, d.setId (env.createResult payload).1.id, [payload]) ∧
    (d.setId (env.createResult payload).1.id).id = (env.createResult payload).1.id := by
  have hrefresh : ∀ j, ∃ a s,
      createRefresh (env.createResult payload).2.2 env.getKafka j = Except.ok (a, s) ∧
      s ∉ createTarget := by
    intro j
    obtain ⟨he, ht⟩ := hstatus j
    refine ⟨(env.getKafka j).kafka, (env.getKafka j).kafka.status,
      by simp only [createRefresh, he], ?_⟩
    simpa [createTarget] using ht
  have hpoll := poll_timeout_of_not_target _ createPending createTarget env.timeoutMsg
    hrefresh env.fuel 0
  rw [hcreate] at hpoll
  refine ⟨?_, rfl⟩
  simp only [kafkaCreate, hmap]
  rw [hcreate, hpoll]

def c4CreateEnv : CreateEnv :=
  { createResult := fun _ => ({ id := "kid4" }, none, none)
    getKafka := fun _ => { kafka := { id := "kid4", status := "accepted" } }
    fuel := 2
    timeoutMsg := "timed out waiting for ready"
    aclEnv := { adminFetch := fun _ => {}, createAcl := fun _ _ => none } }

def c4Data : ResourceData :=
  { fields := [(CloudProviderField, Value.vStr "aws"), (RegionField, Value.vStr "us-east-1"),
               (NameField, Value.vStr "my-kafka-2")] }

theorem create_timeout_keeps_identifier_witness :
    kafkaCreate c4CreateEnv c4Data =
      (Diag.err c4CreateEnv.timeoutMsg, c4Data.setId "kid4",
        [{ name := "my-kafka-2", cloudProvider := "aws", region := "us-east-1" }]) ∧
    (c4Data.setId "kid4").id = "kid4" :=
  create_timeout_keeps_identifier c4CreateEnv c4Data
    { name := "my-kafka-2", cloudProvider := "aws", region := "us-east-1" }
    rfl rfl (fun _ => ⟨rfl, show ("accepted" : String) ≠ "ready" by decide⟩)

/-- C3: every not-found report in the delete path completes the delete
successfully with the local identifier cleared: (1) a delete call error with
text `"404 "` succeeds immediately, for any polling environment — the poll
loop is never consulted; (2) a poll fetch error with text `"404 Not Found"`
reports the sentinel status `"404"`, which is in the target set
{deleted, 404}, ending polling successfully; (3) a timeout whose error text
contains `"not found"` is also treated as success rather than surfaced. -/
theorem delete_not_found_is_success :
    (∀ (env : DeleteEnv) (d : ResourceData) (e : GoError),
      env.deleteErr = some e → e.msg = "404 " →
      kafkaDelete env d = (Diag.ok, d.setId "")) ∧
    (∀ (env : DeleteEnv) (d : ResourceData) (k : Nat) (e : GoError),
      env.deleteErr = none →
      (∀ j, j < k → (env.getKafka j).err = none ∧
        (env.getKafka j).kafka.status ∉ deleteTarget) →
      (env.getKafka k).err = some e → e.msg = "404 Not Found" →
      k < env.fuel →
      kafkaDelete env d = (Diag.ok, d.setId "")) ∧
    (∀ (env : DeleteEnv) (d : ResourceData),
      env.deleteErr = none →
      (∀ i, (env.getKafka i).err = none ∧
        (env.getKafka i).kafka.status ∉ deleteTarget) →
      stringsContains env.timeoutMsg "not found" = true →
      kafkaDelete env d = (Diag.ok, d.setId "")) := by
  refine ⟨?_, ?_, ?_⟩
  · intro env d e hdel hmsg
    simp [kafkaDelete, hdel, hmsg]
  · intro env d k e hdel hbefore herr hmsg hfuel
    have hsucc : poll (deleteRefresh env.getKafka) deletePending deleteTarget
        env.timeoutMsg 0 env.fuel = PollOutcome.success (env.getKafka k).kafka := by
      refine poll_success_at _ deletePending deleteTarget env.timeoutMsg k 0 env.fuel
        (env.getKafka k).kafka "404" ?_ ?_ (by decide) hfuel
      · intro j hj
        obtain ⟨hje, hjs⟩ := hbefore j hj
        refine ⟨(env.getKafka j).kafka, (env.getKafka j).kafka.status, ?_, hjs⟩
        rw [Nat.zero_add]
        simp only [deleteRefresh, hje]
      · rw [Nat.zero_add]
        simp [deleteRefresh, herr, hmsg]
    simp only [kafkaDelete, hdel, hsucc]
  · intro env d hdel hstat hcontains
    have hrefresh : ∀ j, ∃ a s,
        deleteRefresh env.getKafka j = Except.ok (a, s) ∧ s ∉ deleteTarget := by
      intro j
      obtain ⟨hje, hjs⟩ := hstat j
      exact ⟨(env.getKafka j).kafka, (env.getKafka j).kafka.status,
        by simp only [deleteRefresh, hje], hjs⟩
    have hpoll := poll_timeout_of_not_target _ deletePending deleteTarget env.timeoutMsg
      hrefresh env.fuel 0
    simp [kafkaDelete, hdel, hpoll, hcontains]

def c3aEnv : DeleteEnv :=
  { deleteErr := some { msg := "404 " }
    deleteApiErrReason := ""
    getKafka := fun _ => {}
    fuel := 0
    timeoutMsg := "t" }

def c3aData : ResourceData := { id := "kid-a" }

def c3bEnv : DeleteEnv :=
  { deleteErr := none
    deleteApiErrReason := ""
    getKafka := fun j =>
      if j = 0 then { kafka := { status := "deleting" } }
      else { err := some { msg := "404 Not Found" } }
    fuel := 3
    timeoutMsg := "t" }

def c3bData : ResourceData := { id := "kid-b" }

def c3cEnv : DeleteEnv :=
  { deleteErr := none
    deleteApiErrReason := ""
    getKafka := fun _ => { kafka := { status := "deleting" } }
    fuel := 2
    timeoutMsg := "timeout waiting: instance not found" }

def c3cData : ResourceData := { id := "kid-c" }

theorem delete_not_found_is_success_witness :
    kafkaDelete c3aEnv c3aData = (Diag.ok, c3aData.setId "") ∧
    kafkaDelete c3bEnv c3bData = (Diag.ok, c3bData.setId "") ∧
    kafkaDelete c3cEnv c3cData = (Diag.ok, c3cData.setId "") :=
  ⟨delete_not_found_is_success.1 c3aEnv c3aData { msg := "404 " } rfl rfl,
   delete_not_found_is_success.2.1 c3bEnv c3bData 1 { msg := "404 Not Found" } rfl
     (fun j hj => by
       have hj0 : j = 0 := by omega
       subst hj0
       exact ⟨rfl, by decide⟩)
     rfl rfl (by decide),
   delete_not_found_is_success.2.2 c3cEnv c3cData rfl
     (fun _ => ⟨rfl, show ("deleting" : String) ∉ deleteTarget by decide⟩) (by decide)⟩

end Rhoas
